import Mathlib

/-!
Verification development for the MCP protocol client of the `mcp-doctor`
repository.  The Python sources under `src/mcp_analyzer/` are shallowly
embedded: pure fragments become Lean functions, stateful fragments become
explicit state-passing functions, and fallible fragments return `Option`
or `Except`.  Dictionaries are embedded as association lists whose update
follows Python `dict` semantics (replace in place, append when new).
-/

namespace MCPDoctor

/-- Substring test, embedding Python's `sub in s` on strings. -/
def containsSub (s sub : String) : Bool := decide (sub.data <:+: s.data)

/-- Python's `str.startswith`. -/
def strStartsWith (s sub : String) : Bool := decide (sub.data <+: s.data)

/-- Characters stripped by Python's bare `str.strip()`. -/
def isPyStripSpace (c : Char) : Bool :=
  c = ' ' || c = '\t' || c = '\n' || c = '\r' || c = '\x0b' || c = '\x0c'

/-- Python's bare `str.strip()`. -/
def pyStrip (s : String) : String :=
  String.mk
    (((s.data.dropWhile isPyStripSpace).reverse.dropWhile
      isPyStripSpace).reverse)

/-- Python's `str.lower()` (ASCII case folding suffices here). -/
def pyLower (s : String) : String := String.mk (s.data.map Char.toLower)

/-- Does the input start with `sep`? -/
def listStartsWith : List Char → List Char → Bool
  | _, [] => true
  | [], _ :: _ => false
  | c :: l, p :: ps => c = p && listStartsWith l ps

/-- Python's `str.split(sep)` scan: split at each leftmost
non-overlapping occurrence of `sep`.  Fuel bounds the scan; `sep` is
never empty here, so every step consumes at least one character. -/
def pySplitGo (sep : List Char) : Nat → List Char → List Char →
    List (List Char)
  | 0, cur, _ => [cur.reverse]
  | _ + 1, cur, [] => [cur.reverse]
  | fuel + 1, cur, c :: rest =>
    if listStartsWith (c :: rest) sep then
      cur.reverse :: pySplitGo sep fuel [] ((c :: rest).drop sep.length)
    else pySplitGo sep fuel (c :: cur) rest

/-- Python's `str.split(sep)` for a non-empty separator. -/
def pySplit (s sep : String) : List String :=
  (pySplitGo sep.data (s.length + 1) [] s.data).map String.mk

/-- Python's `sep.join(parts)`. -/
def pyJoin (sep : String) (parts : List String) : String :=
  String.mk (List.intercalate sep.data (parts.map String.data))

/-- First-match lookup in an association list (Python `dict[key]` access,
where construction keeps keys unique). -/
def dlookup {α : Type} : List (String × α) → String → Option α
  | [], _ => none
  | (k, v) :: m, key => if k = key then some v else dlookup m key

/-- Python `dict[key] = value`: replace the value at an existing key in
place, otherwise append the binding. -/
def dinsert {α : Type} : List (String × α) → String → α → List (String × α)
  | [], key, val => [(key, val)]
  | (k, v) :: m, key, val =>
    if k = key then (k, val) :: m else (k, v) :: dinsert m key val

/-- Python `dict.update(other)`: insert the bindings of `kvs` in order. -/
def dupdate {α : Type} (m : List (String × α)) (kvs : List (String × α)) :
    List (String × α) :=
  kvs.foldl (fun acc p => dinsert acc p.1 p.2) m

/-- Python `dict.pop(key, None)`: drop the first binding of `key`. -/
def dremove {α : Type} : List (String × α) → String → List (String × α)
  | [], _ => []
  | (k, v) :: m, key => if k = key then m else (k, v) :: dremove m key

/-- Keys of an association list. -/
def dkeys {α : Type} (m : List (String × α)) : List String := m.map Prod.fst

/-- Characters matched by the regex class `\s` (Python, ASCII range). -/
def isPySpace (c : Char) : Bool :=
  c = ' ' || c = '\t' || c = '\n' || c = '\r' || c = '\x0b' || c = '\x0c'

/-- Python `str.strip("\"'")`: drop the quote characters from both ends. -/
def pyStripChars (chars : List Char) (s : String) : String :=
  String.mk
    (((s.data.dropWhile (chars.contains ·)).reverse.dropWhile
      (chars.contains ·)).reverse)

/-! ### `npx_launcher.py`: environment-assignment scanning

`NPXServerProcess._parse_env_assignments` runs `re.findall` with the two
patterns `export\s+([A-Z_][A-Z0-9_]*)=([^\s&]+)` and
`([A-Z_][A-Z0-9_]*)=([^\s&]+)` over the assignment text and inserts every
match into one dict (first all matches of the export form, then all bare
matches).  Both patterns are deterministic: each quantified class is
disjoint from the character that must follow it, so greedy matching is
maximal-munch and `re.findall`'s leftmost non-overlapping scan is the
scanner below. -/

/-- First character of the regex class `[A-Z_]`. -/
def isEnvNameStart (c : Char) : Bool := ('A' ≤ c && c ≤ 'Z') || c = '_'

/-- Characters of the regex class `[A-Z0-9_]`. -/
def isEnvNameChar (c : Char) : Bool := isEnvNameStart c || ('0' ≤ c && c ≤ '9')

/-- Characters of the regex class `[^\s&]`. -/
def isEnvValChar (c : Char) : Bool := !(isPySpace c) && c ≠ '&'

/-- Match `([A-Z_][A-Z0-9_]*)=([^\s&]+)` at the head of the input,
returning the two groups and the rest of the input after the match. -/
def matchAssignCore : List Char → Option ((String × String) × List Char)
  | [] => none
  | c :: rest =>
    if isEnvNameStart c then
      let p1 := rest.span isEnvNameChar
      match p1.2 with
      | '=' :: r2 =>
        let p2 := r2.span isEnvValChar
        if p2.1.isEmpty then none
        else some ((String.mk (c :: p1.1), String.mk p2.1), p2.2)
      | _ => none
    else none

/-- Match `export\s+([A-Z_][A-Z0-9_]*)=([^\s&]+)` at the head of the
input. -/
def matchExportAssign : List Char → Option ((String × String) × List Char)
  | 'e' :: 'x' :: 'p' :: 'o' :: 'r' :: 't' :: rest =>
    let sp := rest.span isPySpace
    if sp.1.isEmpty then none else matchAssignCore sp.2
  | _ => none

/-- Embeds `re.findall` scan: try the matcher at every position left to right,
skipping past each non-overlapping match.  Fuel bounds the scan; every
step consumes at least one character, so `length + 1` fuel is enough. -/
def findallScan (m : List Char → Option ((String × String) × List Char)) :
    Nat → List Char → List (String × String)
  | 0, _ => []
  | _ + 1, [] => []
  | fuel + 1, c :: rest =>
    match m (c :: rest) with
    | some (p, r) => p :: findallScan m fuel r
    | none => findallScan m fuel rest

/-- All matches of the `export NAME=value` pattern in `s`. -/
def findallExport (s : String) : List (String × String) :=
  findallScan matchExportAssign (s.length + 1) s.data

/-- All matches of the bare `NAME=value` pattern in `s`. -/
def findallBare (s : String) : List (String × String) :=
  findallScan matchAssignCore (s.length + 1) s.data

namespace NPXServerProcess

/-- Embeds `NPXServerProcess._parse_env_assignments`: collect both patterns'
matches into one dict, stripping surrounding quotes from each value. -/
def parse_env_assignments (env_string : String) : List (String × String) :=
  let matchesA :=
    (findallExport env_string).map fun p => (p.1, pyStripChars ['"', '\''] p.2)
  let matchesB :=
    (findallBare env_string).map fun p => (p.1, pyStripChars ['"', '\''] p.2)
  dupdate (dupdate [] matchesA) matchesB

/-- Embeds `NPXServerProcess._prepare_environment`: ambient environment, then the
configured `env_vars`, then the assignments parsed from the part of the
command before the first `&&`. -/
def prepare_environment (ambient : List (String × String))
    (env_vars : List (String × String)) (command : String) :
    List (String × String) :=
  let env := dupdate ambient env_vars
  let cmd := pyStrip command
  if containsSub cmd "&&" then
    let env_part := pyStrip ((pySplit cmd "&&").headD "")
    dupdate env (parse_env_assignments env_part)
  else env

end NPXServerProcess

/-! ### `npx_launcher.py`: command tokenization

`NPXServerProcess._parse_command` takes the last `&&`-separated segment,
tokenizes it with `shlex.split` (POSIX mode) and requires the first token
to be `npx`. -/

/-- Characters in `shlex.whitespace`. -/
def isShlexSpace (c : Char) : Bool :=
  c = ' ' || c = '\t' || c = '\r' || c = '\n'

/-- States of the POSIX `shlex` tokenizer: outside quotes, after a
backslash outside quotes, inside single quotes, inside double quotes,
after a backslash inside double quotes. -/
inductive ShMode | norm | esc | squote | dquote | dqesc

/-- POSIX `shlex` tokenizer loop.  `hasTok` records whether a token is in
progress (a closed empty quote still yields a token); `cur` is the current
token reversed; `acc` the finished tokens.  `none` embeds the
`ValueError` raised on an unterminated quote or trailing escape. -/
def shlexGo : List Char → ShMode → Bool → List Char → List String →
    Option (List String)
  | [], .norm, hasTok, cur, acc =>
    some (if hasTok then acc ++ [String.mk cur.reverse] else acc)
  | [], _, _, _, _ => none
  | c :: rest, .norm, hasTok, cur, acc =>
    if isShlexSpace c then
      if hasTok then shlexGo rest .norm false [] (acc ++ [String.mk cur.reverse])
      else shlexGo rest .norm false [] acc
    else if c = '\'' then shlexGo rest .squote true cur acc
    else if c = '"' then shlexGo rest .dquote true cur acc
    else if c = '\\' then shlexGo rest .esc true cur acc
    else shlexGo rest .norm true (c :: cur) acc
  | c :: rest, .esc, _, cur, acc => shlexGo rest .norm true (c :: cur) acc
  | c :: rest, .squote, _, cur, acc =>
    if c = '\'' then shlexGo rest .norm true cur acc
    else shlexGo rest .squote true (c :: cur) acc
  | c :: rest, .dquote, _, cur, acc =>
    if c = '"' then shlexGo rest .norm true cur acc
    else if c = '\\' then shlexGo rest .dqesc true cur acc
    else shlexGo rest .dquote true (c :: cur) acc
  | c :: rest, .dqesc, _, cur, acc =>
    if c = '"' || c = '\\' then shlexGo rest .dquote true (c :: cur) acc
    else shlexGo rest .dquote true (c :: '\\' :: cur) acc

/-- Embeds `shlex.split(s)` in POSIX mode with whitespace splitting. -/
def shlexSplit (s : String) : Option (List String) :=
  shlexGo s.data .norm false [] []

/-- Result of `NPXServerProcess._parse_command`: the token list, the
`NPXLauncherError` raised when the invocation does not begin with `npx`,
or the `ValueError` propagated from `shlex.split`. -/
inductive ParseCommandResult
  | ok (parts : List String)
  | launcherError (msg : String)
  | valueError
deriving DecidableEq, Repr

namespace NPXServerProcess

/-- Embeds `NPXServerProcess._parse_command`. -/
def parse_command (command : String) : ParseCommandResult :=
  let cmd := pyStrip command
  let npx_command :=
    if containsSub cmd "&&" then pyStrip ((pySplit cmd "&&").getLast?.getD "")
    else cmd
  match shlexSplit npx_command with
  | none => .valueError
  | some cmd_parts =>
    match cmd_parts with
    | [] => .launcherError "Command must start with 'npx', got: empty"
    | c0 :: _ =>
      if c0 = "npx" then .ok cmd_parts
      else .launcherError ("Command must start with 'npx', got: " ++ c0)

end NPXServerProcess

/-- The intermediate value `npx_command` of `_parse_command`: the last
`&&`-separated segment of the stripped command (or the whole command). -/
def npxInvocationText (command : String) : String :=
  if containsSub (pyStrip command) "&&" then
    pyStrip ((pySplit (pyStrip command) "&&").getLast?.getD "")
  else pyStrip command

/-- Embeds `npx_launcher.parse_npx_command`: the part before the first `&&` is
scanned for assignments (same regexes and quote stripping as
`_parse_env_assignments`); the rest, rejoined on `&&`, is the npx
command. -/
def parse_npx_command (command : String) : String × List (String × String) :=
  if containsSub command "&&" then
    let parts := pySplit command "&&"
    let env_part := pyStrip (parts.headD "")
    let npx_part := pyStrip (pyJoin "&&" (parts.drop 1))
    (npx_part, NPXServerProcess.parse_env_assignments env_part)
  else
    (pyStrip command, [])

/-- Embeds `npx_launcher.is_npx_command`. -/
def is_npx_command (command : String) : Bool :=
  let cmd :=
    if containsSub command "&&" then
      pyStrip ((pySplit command "&&").getLast?.getD "")
    else command
  strStartsWith (pyStrip cmd) "npx "

/-! ### `npx_launcher.py`: address extraction

`NPXServerProcess._extract_server_url` runs `re.search(pattern, line,
re.IGNORECASE)` over an ordered list of eight patterns.  The engine below
implements Python's backtracking search for the constructs those patterns
use: character classes, concatenation, alternation (leftmost preference)
and greedy star, at the leftmost feasible start position.  Every pattern's
single capture group extends to the pattern's end, so a pattern is
embedded as the pair of its part before the group and the group body. -/

/-- An entry of a character class: a single character or a range. -/
inductive CItem
  | ch (c : Char)
  | range (lo hi : Char)

/-- Regular expressions over the constructs used by the URL patterns. -/
inductive RE
  | eps
  | cls (neg : Bool) (items : List CItem)
  | cat (a b : RE)
  | alt (a b : RE)
  | star (a : RE)

/-- Does `c` hit one class entry? -/
def citemMatch (c : Char) : CItem → Bool
  | .ch d => c = d
  | .range lo hi => lo ≤ c && c ≤ hi

/-- Case toggling, for `re.IGNORECASE`. -/
def toggleCase (c : Char) : Char :=
  if c.isUpper then c.toLower else if c.isLower then c.toUpper else c

/-- Class membership; with `ci` a character also hits via its toggled
case, and negation applies after that (Python semantics). -/
def clsMatch (ci : Bool) (neg : Bool) (items : List CItem) (c : Char) :
    Bool :=
  let hit := items.any (citemMatch c)
      || (ci && items.any (citemMatch (toggleCase c)))
  if neg then !hit else hit

/-- Backtracking matcher: all suffixes left after matching `r` at the head
of the input, in Python's preference order (left alternative first,
greedy star longest first).  Fuel only bounds the recursion depth; the
wrappers pass enough for the fixed patterns below. -/
def mrun (ci : Bool) : Nat → RE → List Char → List (List Char)
  | 0, _, _ => []
  | _ + 1, .eps, s => [s]
  | _ + 1, .cls neg items, s =>
    match s with
    | [] => []
    | c :: r => if clsMatch ci neg items c then [r] else []
  | fuel + 1, .cat a b, s =>
    (mrun ci fuel a s).flatMap fun r => mrun ci fuel b r
  | fuel + 1, .alt a b, s => mrun ci fuel a s ++ mrun ci fuel b s
  | fuel + 1, .star a, s =>
    ((mrun ci fuel a s).flatMap fun r => mrun ci fuel (.star a) r) ++ [s]

/-- Fuel that is ample for the fixed patterns below on input `s`. -/
def reFuel (s : List Char) : Nat := 64 * (s.length + 2)

/-- Try a pattern at the head of the input: take the most preferred way
for the part before the group, then the most preferred way for the group,
and return the group's text. -/
def matchHere (ci : Bool) (pre grp : RE) (s : List Char) :
    Option (List Char) :=
  (mrun ci (reFuel s) pre s).findSome? fun r1 =>
    match mrun ci (reFuel s) grp r1 with
    | [] => none
    | r2 :: _ => some (r1.take (r1.length - r2.length))

/-- Embeds `re.search`: try the pattern at each position, leftmost first. -/
def reSearch (ci : Bool) (pre grp : RE) : List Char → Option (List Char)
  | [] => matchHere ci pre grp []
  | c :: rest =>
    match matchHere ci pre grp (c :: rest) with
    | some cap => some cap
    | none => reSearch ci pre grp rest

/-- Literal string as a regex. -/
def rstr (s : String) : RE :=
  s.data.foldr (fun c acc => RE.cat (RE.cls false [.ch c]) acc) RE.eps

/-- One literal character. -/
def rchar (c : Char) : RE := .cls false [.ch c]

/-- Greedy `?`. -/
def ropt (a : RE) : RE := .alt a .eps

/-- Greedy `+`. -/
def rplus (a : RE) : RE := .cat a (.star a)

/-- Chain of concatenations. -/
def rcat (l : List RE) : RE := l.foldr .cat .eps

/-- The class entries of `\s`. -/
def spaceItems : List CItem :=
  [.ch ' ', .ch '\t', .ch '\n', .ch '\r', .ch '\x0b', .ch '\x0c']

/-- Embeds `\s`. -/
def rspace : RE := .cls false spaceItems

/-- Embeds `[^\s]`. -/
def rnonspace : RE := .cls true spaceItems

/-- Embeds `\d`. -/
def rdigit : RE := .cls false [.range '0' '9']

/-- Embeds `https?://[^\s]+` (the capture group shared by patterns 1-4). -/
def rUrlGroup : RE :=
  rcat [rstr "http", ropt (rchar 's'), rstr "://", rplus rnonspace]

/-- Embeds `(?:localhost|127\.0\.0\.1)`. -/
def rLocalhost : RE := .alt (rstr "localhost") (rstr "127.0.0.1")

/-- Embeds `(?:/[^\s]*)?`. -/
def rOptPath : RE := ropt (.cat (rchar '/') (.star rnonspace))

/-- The eight patterns of `_extract_server_url`, in source order, each as
(part before the capture group, capture group body). -/
def url_patterns : List (RE × RE) :=
  [ (rcat [.alt (rstr "Server") (.alt (rstr "MCP") (rstr "server")),
      rplus rspace,
      .alt (rstr "running") (.alt (rstr "started") (rstr "listening")),
      rplus rspace, ropt (.alt (rstr "on") (rstr "at")), .star rspace],
     rUrlGroup),
    (rcat [.alt (rstr "Available") (rstr "Serving"), rplus rspace,
      ropt (.alt (rstr "on") (rstr "at")), .star rspace],
     rUrlGroup),
    (rcat [.alt (rstr "URL") (rstr "url"), rchar ':', .star rspace],
     rUrlGroup),
    (rcat [.alt (rstr "Listening") (rstr "listening"), rplus rspace,
      ropt (.alt (rstr "on") (rstr "at")), .star rspace],
     rUrlGroup),
    (.eps,
     rcat [rstr "http", ropt (rchar 's'), rstr "://", rLocalhost,
       rchar ':', rplus rdigit, rOptPath]),
    (.eps,
     rcat [rstr "http://", rplus (.cls true (spaceItems ++ [.ch ':'])),
       rchar ':', rplus rdigit, rOptPath]),
    (rcat [.alt (rstr "port") (rstr "Port"), rplus rspace], rplus rdigit),
    (rcat [rLocalhost, rchar ':'], rplus rdigit) ]

/-- Python `str.rstrip(".,;")`. -/
def pyRstrip (chars : List Char) (s : String) : String :=
  String.mk (s.data.reverse.dropWhile (chars.contains ·)).reverse

/-- Python `str.isdigit` (ASCII digits suffice here). -/
def pyIsDigit (s : String) : Bool :=
  !s.data.isEmpty && s.data.all fun c => '0' ≤ c && c ≤ '9'

namespace NPXServerProcess

/-- Embeds `NPXServerProcess._is_valid_url`. -/
def is_valid_url (url : String) : Bool :=
  (strStartsWith url "http://" || strStartsWith url "https://")
    && (containsSub url "localhost" || containsSub url "127.0.0.1")
    && containsSub url ":"

/-- One iteration of `_extract_server_url`'s pattern loop: on a match,
strip trailing `.,;`, turn a bare port into `http://localhost:port`, and
accept only when the result passes `_is_valid_url`; otherwise fall
through to the next pattern. -/
def extract_loop : List (RE × RE) → String → Option String
  | [], _ => none
  | (pre, grp) :: rest, line =>
    match reSearch true pre grp line.data with
    | some cap =>
      let url_or_port := pyRstrip ['.', ',', ';'] (String.mk cap)
      let url :=
        if pyIsDigit url_or_port then "http://localhost:" ++ url_or_port
        else url_or_port
      if is_valid_url url then some url else extract_loop rest line
    | none => extract_loop rest line

/-- Embeds `NPXServerProcess._extract_server_url`. -/
def extract_server_url (line : String) : Option String :=
  extract_loop url_patterns line

end NPXServerProcess

namespace MCPClient

/-- Embeds `MCPClient._detect_transport_type` (with `self._is_npx_server`
inlined as `is_npx_command server_target`). -/
def detect_transport_type (transport : String) (server_target : String) :
    String :=
  if transport ≠ "auto" then transport
  else if strStartsWith server_target "http://"
      || strStartsWith server_target "https://" then "http"
  else if is_npx_command server_target then "stdio"
  else "stdio"

end MCPClient

/-! ### Protocol messages

Both clients define a pydantic `MCPMessage` whose fields are all
optional; the stdio client keys ids by `int`, the SSE client by `str`.
Arbitrary JSON payloads are embedded by `JVal`. -/

/-- JSON values. -/
inductive JVal
  | null
  | bool (b : Bool)
  | num (n : Int)
  | str (s : String)
  | arr (elems : List JVal)
  | obj (fields : List (String × JVal))

/-- Embeds `dict.get(key)` on a JSON object; `none` for non-objects. -/
def jget : JVal → String → Option JVal
  | .obj fields, key => dlookup fields key
  | _, _ => none

/-- Python truthiness of a JSON value (`if response.result:`). -/
def jtruthy : JVal → Bool
  | .null => false
  | .bool b => b
  | .num n => n ≠ 0
  | .str s => s ≠ ""
  | .arr elems => !elems.isEmpty
  | .obj fields => !fields.isEmpty

/-- Embeds `MCPMessage`, parameterized by the id type (`Nat` for the stdio
client, `String` for the SSE client). -/
structure MCPMessage (ι : Type) where
  jsonrpc : String := "2.0"
  id : Option ι := none
  method : Option String := none
  params : Option JVal := none
  result : Option JVal := none
  error : Option JVal := none

/-! ### `mcp_stdio_client.py`: id allocation and response matching -/

namespace MCPStdioClient

/-- Embeds `MCPStdioClient._next_id`: increment `self._request_id` and return
it.  The pair is (new counter state, allocated id). -/
def next_id (request_id : Nat) : Nat × Nat := (request_id + 1, request_id + 1)

/-- The ids handed out by `k` successive `_next_id` calls starting from
counter state `st`. -/
def alloc_ids (st : Nat) : Nat → List Nat
  | 0 => []
  | k + 1 => (next_id st).2 :: alloc_ids (next_id st).1 k

/-- The queue scan inside `MCPStdioClient._wait_for_response`: take the
front message off the shared response queue; if its id matches, return it
together with the remaining queue, otherwise re-enqueue it at the back
and keep looking.  Fuel bounds the loop; `none` is the timeout path
(no matching response has arrived). -/
def find_response (request_id : Nat) :
    Nat → List (MCPMessage Nat) →
    Option (MCPMessage Nat × List (MCPMessage Nat))
  | 0, _ => none
  | _ + 1, [] => none
  | fuel + 1, m :: q =>
    if m.id = some request_id then some (m, q)
    else find_response request_id fuel (q ++ [m])

/-- Embeds `_wait_for_response` over a queue snapshot: one full rotation of the
queue suffices to find a present response. -/
def wait_for_response (request_id : Nat) (q : List (MCPMessage Nat)) :
    Option (MCPMessage Nat × List (MCPMessage Nat)) :=
  find_response request_id q.length q

/-- Several waiters draining one shared queue in turn, each with its own
request id — the concurrency shape of concurrent `_wait_for_response`
callers (each non-matching message is re-enqueued for the others). -/
def serve_all : List Nat → List (MCPMessage Nat) →
    List (Option (MCPMessage Nat)) × List (MCPMessage Nat)
  | [], q => ([], q)
  | r :: rs, q =>
    match wait_for_response r q with
    | some (m, q1) => let p := serve_all rs q1; (some m :: p.1, p.2)
    | none => let p := serve_all rs q; (none :: p.1, p.2)

/-- The `asyncio.TimeoutError` text raised by `_wait_for_response`. -/
def timeout_message (request_id timeout : Nat) : String :=
  "Request " ++ toString request_id ++ " timed out after "
    ++ toString timeout ++ "s"

/-- Embeds `MCPStdioClient.get_server_info`: a constant dictionary of
synthesized defaults; the initialize response is never consulted. -/
def get_server_info : List (String × JVal) :=
  [("protocol_version", .str "2024-11-05"),
   ("server_name", .str "MCP Server"),
   ("server_version", .str "unknown"),
   ("capabilities", .obj [])]

end MCPStdioClient

/-! ### `mcp_sse_client.py`: pending requests, POST fast path, events -/

namespace MCPSSEClient

/-- Registration step of `_wait_for_sse_response`: store a fresh future
(represented by an abstract token) under the request id. -/
def register_pending (pending : List (String × Nat)) (request_id : String)
    (future : Nat) : List (String × Nat) :=
  dinsert pending request_id future

/-- Timeout path of `_wait_for_sse_response`:
`self._pending_requests.pop(request_id, None)`. -/
def timeout_cleanup (pending : List (String × Nat)) (request_id : String) :
    List (String × Nat) :=
  dremove pending request_id

/-- The `asyncio.TimeoutError` text raised by `_wait_for_sse_response`. -/
def sse_timeout_message (request_id : String) (timeout : Nat) : String :=
  "SSE request " ++ request_id ++ " timed out after "
    ++ toString timeout ++ "s"

/-- Outcome of the POST in `_send_request`: a response with a status code
and, for bodies that parse as JSON, the parsed message; or a raised
exception. -/
inductive PostOutcome
  | resp (status : Nat) (body : Option (MCPMessage String))
  | exn

/-- Route taken by `_send_request` after the POST. -/
inductive SendOutcome
  | immediate (m : MCPMessage String)
  | waitForResponse (request_id : String)
  | noWait
  | sendError

/-- Embeds `MCPSSEClient._send_request` after the POST: a 200 whose body parses
as JSON is returned immediately; otherwise accepted statuses fall back to
waiting on the pending future when the outgoing message has an id; any
other status or exception raises. -/
def send_request_route (message_id : Option String) (post : PostOutcome) :
    SendOutcome :=
  match post with
  | .exn => .sendError
  | .resp status body =>
    if status = 200 || status = 202 || status = 204 then
      match status, body with
      | 200, some m => .immediate m
      | _, _ =>
        match message_id with
        | some i => .waitForResponse i
        | none => .noWait
    else .sendError

/-- Embeds `MCPSSEClient._handle_message_event`: `parsed` is the event data
after JSON parsing and `MCPMessage` validation (`none` embeds empty data
and parse failures, which are discarded).  A message whose id is truthy
and pending pops exactly that future and resolves it with the message;
anything else is discarded. -/
def handle_message_event (parsed : Option (MCPMessage String))
    (pending : List (String × Nat)) :
    List (String × Nat) × Option (Nat × MCPMessage String) :=
  match parsed with
  | none => (pending, none)
  | some message =>
    match message.id with
    | none => (pending, none)
    | some i =>
      if i = "" then (pending, none)
      else
        match dlookup pending i with
        | some future => (dremove pending i, some (future, message))
        | none => (pending, none)

/-- SSE client state relevant to `get_server_info`, as set by
`_initialize_mcp_connection`. -/
structure InfoState where
  protocol_version : Option JVal := none
  server_capabilities : JVal := .obj []
  server_info : JVal := .obj []
  instructions : Option JVal := none

/-- The field extraction of `_initialize_mcp_connection`: when the
initialize response carries a truthy `result`, store its
`protocolVersion`, `capabilities`, `serverInfo` and `instructions`
fields. -/
def apply_init_result (result : Option JVal) (st : InfoState) : InfoState :=
  match result with
  | some r =>
    if jtruthy r then
      { protocol_version := jget r "protocolVersion",
        server_capabilities := (jget r "capabilities").getD (.obj []),
        server_info := (jget r "serverInfo").getD (.obj []),
        instructions := jget r "instructions" }
    else st
  | none => st

/-- Embeds `MCPSSEClient.get_server_info`: build the info dictionary from the
stored state, with defaults for a missing server name or version. -/
def get_server_info (st : InfoState) : List (String × JVal) :=
  let info : List (String × JVal) :=
    [("protocol_version", (st.protocol_version).getD .null),
     ("server_name", (jget st.server_info "name").getD (.str "SSE MCP Server")),
     ("server_version", (jget st.server_info "version").getD (.str "unknown")),
     ("capabilities", st.server_capabilities),
     ("transport", .str "sse")]
  match st.instructions with
  | some ins => if jtruthy ins then info ++ [("instructions", ins)] else info
  | none => info

end MCPSSEClient

/-! ### `mcp_client.py`: endpoint probing and teardown -/

namespace MCPClient

/-- Outcome of the HEAD request in `_probe_http_endpoint`: a response
(status code, `content-type` header, empty string when the header is
missing), an `httpx.HTTPStatusError` (passed over, probing continues
with the GET), or any other exception (caught by the outer handler). -/
inductive HeadOutcome
  | resp (status : Nat) (content_type : String)
  | statusError
  | exn

/-- Outcome of the short-timeout GET: a response, an
`asyncio.TimeoutError`, or any other exception. -/
inductive GetOutcome
  | resp (status : Nat) (content_type : String)
  | timeout
  | exn

/-- The GET branch of `_probe_http_endpoint`. -/
def probe_get_branch : GetOutcome → String
  | .resp status ct =>
    let content_type := pyLower ct
    if containsSub content_type "text/event-stream" then "sse"
    else if status = 406 then "sse"
    else if containsSub content_type "application/json" then "http"
    else "http"
  | .timeout => "sse"
  | .exn => "http"

/-- Embeds `MCPClient._probe_http_endpoint`: HEAD first (406 or an
event-stream content-type means SSE), then the GET branch; any
exception other than the HEAD's `HTTPStatusError` and the GET's
`asyncio.TimeoutError` lands in the outer handler, which returns
"http". -/
def probe_http_endpoint (head : HeadOutcome) (get : GetOutcome) : String :=
  match head with
  | .exn => "http"
  | .resp status ct =>
    if status = 406 then "sse"
    else if containsSub (pyLower ct) "text/event-stream" then "sse"
    else probe_get_branch get
  | .statusError => probe_get_branch get

end MCPClient

/-- Swallowed teardown step: `try: body except Exception: logger...` —
the failure is logged, never propagated. -/
def swallow (body : Except String Unit) : Except String Unit :=
  match body with
  | .ok u => .ok u
  | .error _ => .ok ()

namespace MCPSSEClient

/-- Embeds `MCPSSEClient.close`: the listener task is cancelled (the resulting
`CancelledError` is caught), pending futures are cancelled and the map
cleared, then `self._session.aclose()` runs with no handler — its
failure propagates out of `close`. -/
def close (has_session : Bool) (aclose : Except String Unit) :
    Except String (List (String × Nat)) :=
  match (if has_session then aclose else .ok ()) with
  | .error e => .error e
  | .ok _ => .ok []

end MCPSSEClient

namespace MCPClient

/-- Which transport resources a client instance currently holds. -/
structure ClientState where
  session : Bool
  npx_manager : Bool
  stdio_client : Bool
  sse_client : Bool
deriving DecidableEq

/-- Outcomes of the elementary teardown actions `close` can trigger:
the façade session's `aclose`, the body of `NPXServerProcess.stop`'s
`try`, the body of `MCPStdioClient.close`'s `try`, and the SSE
client's session `aclose`. -/
structure TeardownWorld where
  session_aclose : Except String Unit
  npx_stop : Except String Unit
  stdio_stop : Except String Unit
  sse_session_aclose : Except String Unit

/-- Embeds `MCPClient.close`: close the HTTP session (unguarded), stop NPX
servers (`NPXServerProcess.stop` swallows failures), close the stdio
client (its `try` swallows failures), close the SSE client (its session
`aclose` is unguarded and propagates).  Each field is reset to `None`
after its step; on success all resources are released. -/
def close (st : ClientState) (w : TeardownWorld) :
    Except String ClientState :=
  match (if st.session then w.session_aclose else .ok ()) with
  | .error e => .error e
  | .ok _ =>
    match (if st.npx_manager then swallow w.npx_stop else .ok ()) with
    | .error e => .error e
    | .ok _ =>
      match (if st.stdio_client then swallow w.stdio_stop else .ok ()) with
      | .error e => .error e
      | .ok _ =>
        match (if st.sse_client then
            (MCPSSEClient.close true w.sse_session_aclose).map (fun _ => ())
          else .ok ()) with
        | .error e => .error e
        | .ok _ => .ok ⟨false, false, false, false⟩

end MCPClient

/-! ### Definitions following the claims' words

For claims whose statement differs from the source these definitions
transcribe the claim, to be compared against the embedding of the
source. -/

namespace NPXServerProcess

/-- Embeds `_prepare_environment` as claim C4 words it: everything before the
LAST `&&`-separated segment is assignment text (the source uses only the
first segment). -/
def prepare_environment_claimed (ambient : List (String × String))
    (env_vars : List (String × String)) (command : String) :
    List (String × String) :=
  let env := dupdate ambient env_vars
  let cmd := pyStrip command
  if containsSub cmd "&&" then
    let env_part :=
      pyStrip (pyJoin "&&" (pySplit cmd "&&").dropLast)
    dupdate env (parse_env_assignments env_part)
  else env

end NPXServerProcess

namespace MCPClient

/-- Embeds `_probe_http_endpoint` as claim C6 words it: the HEAD rule, then the
GET classified by the same content-type/status rule, defaulting to
"http" whenever the result is ambiguous or the probe itself errors. -/
def probe_http_endpoint_claimed (head : HeadOutcome) (get : GetOutcome) :
    String :=
  match head with
  | .resp status ct =>
    if status = 406 || containsSub (pyLower ct) "text/event-stream" then "sse"
    else
      match get with
      | .resp gstatus gct =>
        if gstatus = 406 || containsSub (pyLower gct) "text/event-stream"
        then "sse" else "http"
      | _ => "http"
  | _ =>
    match get with
    | .resp gstatus gct =>
      if gstatus = 406 || containsSub (pyLower gct) "text/event-stream"
      then "sse" else "http"
    | _ => "http"

end MCPClient

namespace MCPStdioClient

/-- Stdio `get_server_info` as claim C9 words it: populated from the
initialize response's result, with synthesized defaults when that
information is absent (the source returns the defaults
unconditionally). -/
def get_server_info_claimed (init_result : Option JVal) :
    List (String × JVal) :=
  let r := init_result.getD (.obj [])
  let server_info := (jget r "serverInfo").getD (.obj [])
  [("protocol_version", (jget r "protocolVersion").getD (.str "2024-11-05")),
   ("server_name", (jget server_info "name").getD (.str "MCP Server")),
   ("server_version", (jget server_info "version").getD (.str "unknown")),
   ("capabilities", (jget r "capabilities").getD (.obj []))]

end MCPStdioClient

/-! ## Association-list lemmas (Python dict semantics) -/

theorem dkeys_nil {α : Type} : dkeys ([] : List (String × α)) = [] := rfl

theorem dkeys_cons {α : Type} (p : String × α) (m : List (String × α)) :
    dkeys (p :: m) = p.1 :: dkeys m := rfl

theorem dlookup_cons_eq {α : Type} {a k : String} (b : α)
    (m : List (String × α)) (h : a = k) : dlookup ((a, b) :: m) k = some b := by
  simp [dlookup, h]

theorem dlookup_cons_ne {α : Type} {a k : String} (b : α)
    (m : List (String × α)) (h : ¬a = k) :
    dlookup ((a, b) :: m) k = dlookup m k := by
  simp [dlookup, h]

theorem dinsert_cons_eq {α : Type} {a k : String} (b v : α)
    (m : List (String × α)) (h : a = k) :
    dinsert ((a, b) :: m) k v = (a, v) :: m := by
  simp [dinsert, h]

theorem dinsert_cons_ne {α : Type} {a k : String} (b v : α)
    (m : List (String × α)) (h : ¬a = k) :
    dinsert ((a, b) :: m) k v = (a, b) :: dinsert m k v := by
  simp [dinsert, h]

theorem dremove_cons_eq {α : Type} {a k : String} (b : α)
    (m : List (String × α)) (h : a = k) : dremove ((a, b) :: m) k = m := by
  simp [dremove, h]

theorem dremove_cons_ne {α : Type} {a k : String} (b : α)
    (m : List (String × α)) (h : ¬a = k) :
    dremove ((a, b) :: m) k = (a, b) :: dremove m k := by
  simp [dremove, h]

theorem dlookup_eq_none_iff {α : Type} (m : List (String × α)) (k : String) :
    dlookup m k = none ↔ k ∉ dkeys m := by
  induction m with
  | nil => simp [dlookup, dkeys_nil]
  | cons p m ih =>
    obtain ⟨a, b⟩ := p
    rw [dkeys_cons, List.mem_cons]
    by_cases h : a = k
    · rw [dlookup_cons_eq b m h]
      simp [h]
    · have h2 : ¬k = a := fun hk => h hk.symm
      rw [dlookup_cons_ne b m h, ih]
      simp [h2]

theorem dlookup_mem {α : Type} {m : List (String × α)} {k : String} {v : α}
    (h : dlookup m k = some v) : (k, v) ∈ m := by
  induction m with
  | nil => simp [dlookup] at h
  | cons p m ih =>
    obtain ⟨a, b⟩ := p
    by_cases hak : a = k
    · rw [dlookup_cons_eq b m hak] at h
      injection h with h
      subst hak
      subst h
      exact List.mem_cons_self _ _
    · rw [dlookup_cons_ne b m hak] at h
      exact List.mem_cons_of_mem _ (ih h)

theorem dlookup_dinsert_self {α : Type} (m : List (String × α)) (k : String)
    (v : α) : dlookup (dinsert m k v) k = some v := by
  induction m with
  | nil => simp [dinsert, dlookup]
  | cons p m ih =>
    obtain ⟨a, b⟩ := p
    by_cases h : a = k
    · rw [dinsert_cons_eq b v m h, dlookup_cons_eq v m h]
    · rw [dinsert_cons_ne b v m h, dlookup_cons_ne b _ h, ih]

theorem dlookup_dinsert_ne {α : Type} (m : List (String × α)) (k k' : String)
    (v : α) (h : k' ≠ k) : dlookup (dinsert m k v) k' = dlookup m k' := by
  have h2 : ¬k = k' := fun hk => h hk.symm
  induction m with
  | nil => simp [dinsert, dlookup, h2]
  | cons p m ih =>
    obtain ⟨a, b⟩ := p
    by_cases hak : a = k
    · rw [dinsert_cons_eq b v m hak]
      subst hak
      rw [dlookup_cons_ne v m h2, dlookup_cons_ne b m h2]
    · rw [dinsert_cons_ne b v m hak]
      by_cases hak' : a = k'
      · rw [dlookup_cons_eq _ _ hak', dlookup_cons_eq _ _ hak']
      · rw [dlookup_cons_ne _ _ hak', dlookup_cons_ne _ _ hak', ih]

theorem mem_dkeys_dinsert {α : Type} (m : List (String × α)) (k a : String)
    (v : α) : a ∈ dkeys (dinsert m k v) ↔ a ∈ dkeys m ∨ a = k := by
  induction m with
  | nil => simp [dinsert, dkeys]
  | cons p m ih =>
    obtain ⟨x, y⟩ := p
    by_cases h : x = k
    · subst h
      rw [dinsert_cons_eq y v m rfl]
      simp only [dkeys_cons, List.mem_cons]
      tauto
    · rw [dinsert_cons_ne y v m h]
      simp only [dkeys_cons, List.mem_cons, ih]
      tauto

theorem nodup_dkeys_dinsert {α : Type} (m : List (String × α)) (k : String)
    (v : α) (h : (dkeys m).Nodup) : (dkeys (dinsert m k v)).Nodup := by
  induction m with
  | nil => simp [dinsert, dkeys]
  | cons p m ih =>
    obtain ⟨x, y⟩ := p
    rw [dkeys_cons, List.nodup_cons] at h
    by_cases hxk : x = k
    · rw [dinsert_cons_eq y v m hxk, dkeys_cons, List.nodup_cons]
      exact h
    · rw [dinsert_cons_ne y v m hxk, dkeys_cons, List.nodup_cons]
      refine ⟨?_, ih h.2⟩
      intro hmem
      rcases (mem_dkeys_dinsert m k x v).mp hmem with hx | hx
      · exact h.1 hx
      · exact hxk hx

theorem dupdate_nil {α : Type} (m : List (String × α)) : dupdate m [] = m :=
  rfl

theorem dupdate_cons {α : Type} (m : List (String × α)) (p : String × α)
    (kvs : List (String × α)) :
    dupdate m (p :: kvs) = dupdate (dinsert m p.1 p.2) kvs :=
  rfl

theorem nodup_dkeys_dupdate {α : Type} (kvs : List (String × α)) :
    ∀ m : List (String × α), (dkeys m).Nodup →
      (dkeys (dupdate m kvs)).Nodup := by
  induction kvs with
  | nil => intro m h; simpa [dupdate_nil] using h
  | cons p kvs ih =>
    intro m h
    rw [dupdate_cons]
    exact ih _ (nodup_dkeys_dinsert m p.1 p.2 h)

theorem dlookup_dupdate_not_mem {α : Type} (kvs : List (String × α)) :
    ∀ (m : List (String × α)) (k : String), k ∉ dkeys kvs →
      dlookup (dupdate m kvs) k = dlookup m k := by
  induction kvs with
  | nil => intro m k _; rfl
  | cons p kvs ih =>
    intro m k hk
    rw [dkeys_cons, List.mem_cons] at hk
    push_neg at hk
    rw [dupdate_cons, ih _ _ hk.2, dlookup_dinsert_ne _ _ _ _ hk.1]

theorem dlookup_dupdate_mem {α : Type} (kvs : List (String × α)) :
    ∀ (m : List (String × α)) (k : String) (v : α), (dkeys kvs).Nodup →
      (k, v) ∈ kvs → dlookup (dupdate m kvs) k = some v := by
  induction kvs with
  | nil => intro m k v _ h; simp at h
  | cons p kvs ih =>
    intro m k v hnd hmem
    obtain ⟨a, b⟩ := p
    rw [dkeys_cons, List.nodup_cons] at hnd
    rcases List.mem_cons.mp hmem with heq | htail
    · cases heq
      rw [dupdate_cons, dlookup_dupdate_not_mem kvs _ _ hnd.1]
      exact dlookup_dinsert_self m k v
    · exact ih _ _ _ hnd.2 htail

theorem dlookup_dremove_ne {α : Type} (m : List (String × α)) (k k' : String)
    (h : k' ≠ k) : dlookup (dremove m k) k' = dlookup m k' := by
  induction m with
  | nil => rfl
  | cons p m ih =>
    obtain ⟨a, b⟩ := p
    by_cases hak : a = k
    · rw [dremove_cons_eq b m hak]
      subst hak
      rw [dlookup_cons_ne b m (fun hk => h hk.symm)]
    · rw [dremove_cons_ne b m hak]
      by_cases hak' : a = k'
      · rw [dlookup_cons_eq _ _ hak', dlookup_cons_eq _ _ hak']
      · rw [dlookup_cons_ne _ _ hak', dlookup_cons_ne _ _ hak', ih]

theorem dlookup_dremove_self {α : Type} (m : List (String × α)) (k : String)
    (h : (dkeys m).Nodup) : dlookup (dremove m k) k = none := by
  induction m with
  | nil => rfl
  | cons p m ih =>
    obtain ⟨a, b⟩ := p
    rw [dkeys_cons, List.nodup_cons] at h
    by_cases hak : a = k
    · rw [dremove_cons_eq b m hak]
      subst hak
      exact (dlookup_eq_none_iff m a).mpr h.1
    · rw [dremove_cons_ne b m hak, dlookup_cons_ne b _ hak]
      exact ih h.2

/-! ## Helper lemmas about the launcher embedding -/

theorem parse_env_assignments_nodup (s : String) :
    (dkeys (NPXServerProcess.parse_env_assignments s)).Nodup := by
  unfold NPXServerProcess.parse_env_assignments
  exact nodup_dkeys_dupdate _ _
    (nodup_dkeys_dupdate _ [] (by simp [dkeys_nil]))

theorem prepare_environment_amp (ambient env_vars : List (String × String))
    (command : String) (hc : containsSub (pyStrip command) "&&" = true) :
    NPXServerProcess.prepare_environment ambient env_vars command =
      dupdate (dupdate ambient env_vars)
        (NPXServerProcess.parse_env_assignments
          (pyStrip ((pySplit (pyStrip command) "&&").headD ""))) := by
  unfold NPXServerProcess.prepare_environment
  rw [if_pos hc]

/-! ## Claim theorems -/

/-- C10: with `transport="auto"` the transport classification function is
pure and total: every target starting with `http://` or `https://` is
classified "http", and every other target string — npx command or not —
is classified "stdio". -/
theorem transport_auto_classification :
    (∀ target : String,
        MCPClient.detect_transport_type "auto" target =
          if strStartsWith target "http://" || strStartsWith target "https://"
          then "http" else "stdio")
  ∧ MCPClient.detect_transport_type "auto" "python server.py" = "stdio"
  ∧ is_npx_command "python server.py" = false := by
  refine ⟨fun target => ?_, by decide, by decide⟩
  unfold MCPClient.detect_transport_type
  rw [if_neg (fun h => h rfl), ite_self]

/-- C5: address discovery tries the patterns in a fixed order and the
first (valid) match wins: the listening line yields its URL, a bare
"port NNNN" mention is rewritten to `http://localhost:NNNN`, and a line
with no recognizable pattern yields no match. -/
theorem address_extraction :
    NPXServerProcess.extract_server_url
        "Server listening on http://localhost:3000/mcp"
      = some "http://localhost:3000/mcp"
  ∧ NPXServerProcess.extract_server_url "App running on port 8123"
      = some "http://localhost:8123"
  ∧ NPXServerProcess.extract_server_url "hello world" = none := by decide

/-- C6 counterexample: a GET that exceeds its short timeout is classified
as SSE by the source, while the claim's "defaults to plain HTTP/REST when
the probe itself errors" demands "http". -/
theorem probe_timeout_counterexample :
    MCPClient.probe_http_endpoint (.resp 200 "text/html") .timeout = "sse"
  ∧ MCPClient.probe_http_endpoint_claimed (.resp 200 "text/html") .timeout
      = "http" := by decide

/-- C6 (amended): a HEAD response with status 406 or an event-stream
content-type classifies the endpoint as SSE; otherwise the GET is
classified by the same 406/event-stream rule, defaulting to "http" when
ambiguous or when the probe errors — except that a GET timeout
classifies the endpoint as SSE. -/
theorem probe_classification :
    (∀ (s : Nat) (ct : String) (get : MCPClient.GetOutcome),
        s = 406 ∨ containsSub (pyLower ct) "text/event-stream" = true →
        MCPClient.probe_http_endpoint (.resp s ct) get = "sse")
  ∧ (∀ (s : Nat) (ct : String) (get : MCPClient.GetOutcome),
        s ≠ 406 → containsSub (pyLower ct) "text/event-stream" = false →
        MCPClient.probe_http_endpoint (.resp s ct) get
          = MCPClient.probe_get_branch get)
  ∧ (∀ get : MCPClient.GetOutcome,
        MCPClient.probe_http_endpoint .statusError get
          = MCPClient.probe_get_branch get)
  ∧ (∀ get : MCPClient.GetOutcome,
        MCPClient.probe_http_endpoint .exn get = "http")
  ∧ (∀ (s : Nat) (ct : String),
        MCPClient.probe_get_branch (.resp s ct) =
          if s = 406 ∨ containsSub (pyLower ct) "text/event-stream" = true
          then "sse" else "http")
  ∧ MCPClient.probe_get_branch .timeout = "sse"
  ∧ MCPClient.probe_get_branch .exn = "http" := by
  have hhead : ∀ (s : Nat) (ct : String) (get : MCPClient.GetOutcome),
      MCPClient.probe_http_endpoint (.resp s ct) get
        = if s = 406 then "sse"
          else if containsSub (pyLower ct) "text/event-stream" = true
          then "sse" else MCPClient.probe_get_branch get :=
    fun s ct get => rfl
  have hget : ∀ (s : Nat) (ct : String),
      MCPClient.probe_get_branch (.resp s ct)
        = if containsSub (pyLower ct) "text/event-stream" = true then "sse"
          else if s = 406 then "sse"
          else if containsSub (pyLower ct) "application/json" = true
          then "http" else "http" :=
    fun s ct => rfl
  refine ⟨?_, ?_, fun get => rfl, fun get => rfl, ?_, rfl, rfl⟩
  · intro s ct get h
    rw [hhead]
    rcases h with h | h
    · rw [if_pos h]
    · by_cases hs : s = 406
      · rw [if_pos hs]
      · rw [if_neg hs, if_pos h]
  · intro s ct get hs hct
    rw [hhead, if_neg hs, hct]
    simp
  · intro s ct
    rw [hget]
    by_cases hct : containsSub (pyLower ct) "text/event-stream" = true
    · rw [if_pos hct, if_pos (Or.inr hct)]
    · rw [if_neg hct]
      by_cases hs : s = 406
      · rw [if_pos hs, if_pos (Or.inl hs)]
      · rw [if_neg hs, ite_self,
          if_neg (fun h : s = 406 ∨
              containsSub (pyLower ct) "text/event-stream" = true =>
            h.elim hs hct)]

/-- C6 witness. -/
theorem probe_classification_witness :
    MCPClient.probe_http_endpoint (.resp 406 "application/json") .exn = "sse"
  ∧ MCPClient.probe_http_endpoint (.resp 200 "text/html") .exn
      = MCPClient.probe_get_branch .exn :=
  ⟨probe_classification.1 406 "application/json" .exn (Or.inl rfl),
   probe_classification.2.1 200 "text/html" .exn (by decide) (by decide)⟩

/-- C7 counterexample: a failing `aclose` of the façade's HTTP session
propagates out of `close()`, so `close()` can raise. -/
theorem close_raises_counterexample :
    MCPClient.close ⟨true, false, false, false⟩
      ⟨.error "connection reset", .ok (), .ok (), .ok ()⟩
      = .error "connection reset" := rfl

/-- C7 (amended): `close()` releases all transport resources when the
teardown steps succeed, is safe to call again afterwards for any
teardown outcomes, and swallows failures of the NPX-server stop and the
stdio process termination; but failures closing the façade's HTTP
session or the SSE client's session propagate. -/
theorem close_release_and_idempotence :
    (∀ st : MCPClient.ClientState,
        MCPClient.close st ⟨.ok (), .ok (), .ok (), .ok ()⟩
          = .ok ⟨false, false, false, false⟩)
  ∧ (∀ w : MCPClient.TeardownWorld,
        MCPClient.close ⟨false, false, false, false⟩ w
          = .ok ⟨false, false, false, false⟩)
  ∧ (∀ (st : MCPClient.ClientState) (w : MCPClient.TeardownWorld),
        st.session = false → st.sse_client = false →
        MCPClient.close st w = .ok ⟨false, false, false, false⟩) := by
  refine ⟨?_, ?_, ?_⟩
  · rintro ⟨s, n, d, e⟩
    cases s <;> cases n <;> cases d <;> cases e <;> rfl
  · rintro ⟨ws, wn, wd, we⟩
    rfl
  · rintro ⟨s, n, d, e⟩ ⟨ws, wn, wd, we⟩ h1 h2
    cases h1
    cases h2
    cases n <;> cases d <;> cases wn <;> cases wd <;> rfl

/-- C7 witness. -/
theorem close_release_and_idempotence_witness :
    MCPClient.close ⟨false, true, true, false⟩
      ⟨.ok (), .error "npx failure", .error "terminate failure", .ok ()⟩
      = .ok ⟨false, false, false, false⟩ :=
  close_release_and_idempotence.2.2 ⟨false, true, true, false⟩
    ⟨.ok (), .error "npx failure", .error "terminate failure", .ok ()⟩ rfl rfl

/-- C3: the child environment starts from the ambient environment, then
applies the configured variables, then the assignments parsed from the
command's assignment text, so the parsed assignments override configured
variables and configured variables never vanish; concretely, for
`"export A=1 && npx demo"` with configured `{A: "2", B: "3"}` the child
environment has `A=1` and `B=3`, whatever the ambient environment. -/
theorem env_precedence :
    (∀ (ambient env_vars : List (String × String)) (command k v : String),
        containsSub (pyStrip command) "&&" = true →
        dlookup (NPXServerProcess.parse_env_assignments
          (pyStrip ((pySplit (pyStrip command) "&&").headD ""))) k = some v →
        dlookup (NPXServerProcess.prepare_environment ambient env_vars command)
          k = some v)
  ∧ (∀ (ambient env_vars : List (String × String)) (command k : String),
        containsSub (pyStrip command) "&&" = true →
        dlookup (NPXServerProcess.parse_env_assignments
          (pyStrip ((pySplit (pyStrip command) "&&").headD ""))) k = none →
        dlookup (NPXServerProcess.prepare_environment ambient env_vars command)
          k = dlookup (dupdate ambient env_vars) k)
  ∧ (∀ ambient : List (String × String),
        dlookup (NPXServerProcess.prepare_environment ambient
          [("A", "2"), ("B", "3")] "export A=1 && npx demo") "A" = some "1"
      ∧ dlookup (NPXServerProcess.prepare_environment ambient
          [("A", "2"), ("B", "3")] "export A=1 && npx demo") "B"
          = some "3") := by
  refine ⟨?_, ?_, ?_⟩
  · intro ambient env_vars command k v hc hv
    rw [prepare_environment_amp ambient env_vars command hc]
    exact dlookup_dupdate_mem _ _ _ _ (parse_env_assignments_nodup _)
      (dlookup_mem hv)
  · intro ambient env_vars command k hc hv
    rw [prepare_environment_amp ambient env_vars command hc]
    exact dlookup_dupdate_not_mem _ _ _
      ((dlookup_eq_none_iff _ _).mp hv)
  · intro ambient
    rw [prepare_environment_amp ambient _ _ (by decide)]
    have ha : NPXServerProcess.parse_env_assignments
        (pyStrip ((pySplit (pyStrip "export A=1 && npx demo") "&&").headD ""))
        = [("A", "1")] := by decide
    rw [ha]
    constructor
    · exact dlookup_dupdate_mem _ _ _ _ (by decide) (by decide)
    · rw [dlookup_dupdate_not_mem _ _ _ (by decide)]
      exact dlookup_dupdate_mem _ _ _ _ (by decide) (by decide)

/-- C3 witness. -/
theorem env_precedence_witness :
    dlookup (NPXServerProcess.prepare_environment [] []
      "export FOO=bar && npx x") "FOO" = some "bar" :=
  env_precedence.1 [] [] "export FOO=bar && npx x" "FOO" "bar" (by decide)
    (by decide)

/-- C4 counterexample: in `"A=1 && B=2 && npx demo"` the middle segment
`B=2` lies before the last `&&`-separated segment, yet the source's
environment lacks `B` — only the first segment is treated as assignment
text, not everything before the last segment. -/
theorem env_text_scope_counterexample :
    dlookup (NPXServerProcess.prepare_environment [] []
      "A=1 && B=2 && npx demo") "B" = none
  ∧ dlookup (NPXServerProcess.prepare_environment_claimed [] []
      "A=1 && B=2 && npx demo") "B" = some "2" := by decide

/-- C4 (amended): for a command containing `&&`, only the FIRST
`&&`-separated segment is treated as environment-assignment text
(segments between the first and the last are ignored); the last segment
is the executable invocation, tokenized with shell word-splitting, and
launch fails with the launcher error when that invocation does not begin
with `npx`. -/
theorem command_parsing :
    (∀ (command : String) (parts : List String),
        NPXServerProcess.parse_command command = .ok parts →
        parts.head? = some "npx")
  ∧ (∀ (command : String) (parts : List String),
        shlexSplit (npxInvocationText command) = some parts →
        parts.head? ≠ some "npx" →
        ∃ msg, NPXServerProcess.parse_command command = .launcherError msg)
  ∧ (∀ (ambient env_vars : List (String × String)) (command : String),
        containsSub (pyStrip command) "&&" = true →
        NPXServerProcess.prepare_environment ambient env_vars command =
          dupdate (dupdate ambient env_vars)
            (NPXServerProcess.parse_env_assignments
              (pyStrip ((pySplit (pyStrip command) "&&").headD "")))) := by
  refine ⟨?_, ?_, fun ambient env_vars command hc =>
    prepare_environment_amp ambient env_vars command hc⟩
  · intro command parts h
    have hpc : NPXServerProcess.parse_command command
        = match shlexSplit (npxInvocationText command) with
          | none => ParseCommandResult.valueError
          | some cmd_parts =>
            match cmd_parts with
            | [] => ParseCommandResult.launcherError
                "Command must start with 'npx', got: empty"
            | c0 :: _ =>
              if c0 = "npx" then ParseCommandResult.ok cmd_parts
              else ParseCommandResult.launcherError
                ("Command must start with 'npx', got: " ++ c0) := rfl
    rw [hpc] at h
    cases hs : shlexSplit (npxInvocationText command) with
    | none =>
      rw [hs] at h
      exact ParseCommandResult.noConfusion h
    | some ps =>
      rw [hs] at h
      cases ps with
      | nil => exact ParseCommandResult.noConfusion h
      | cons c0 rest =>
        have h2 : (if c0 = "npx" then ParseCommandResult.ok (c0 :: rest)
            else ParseCommandResult.launcherError
              ("Command must start with 'npx', got: " ++ c0))
            = ParseCommandResult.ok parts := h
        by_cases hc : c0 = "npx"
        · rw [if_pos hc] at h2
          injection h2 with h3
          rw [← h3, hc]
          rfl
        · rw [if_neg hc] at h2
          exact ParseCommandResult.noConfusion h2
  · intro command parts hs hne
    have hpc : NPXServerProcess.parse_command command
        = match shlexSplit (npxInvocationText command) with
          | none => ParseCommandResult.valueError
          | some cmd_parts =>
            match cmd_parts with
            | [] => ParseCommandResult.launcherError
                "Command must start with 'npx', got: empty"
            | c0 :: _ =>
              if c0 = "npx" then ParseCommandResult.ok cmd_parts
              else ParseCommandResult.launcherError
                ("Command must start with 'npx', got: " ++ c0) := rfl
    cases parts with
    | nil =>
      exact ⟨"Command must start with 'npx', got: empty", by rw [hpc, hs]⟩
    | cons c0 rest =>
      have hc : ¬c0 = "npx" := fun h => hne (by rw [List.head?_cons, h])
      refine ⟨"Command must start with 'npx', got: " ++ c0, ?_⟩
      rw [hpc, hs]
      exact if_neg hc

/-- C4 witness. -/
theorem command_parsing_witness :
    ∃ msg, NPXServerProcess.parse_command "X=1 && node server.js"
      = .launcherError msg :=
  command_parsing.2.1 "X=1 && node server.js" ["node", "server.js"]
    (by decide) (by decide)

/-! ## Substring facts for error messages -/

theorem containsSub_of_infix {s sub : String} (h : sub.data <:+: s.data) :
    containsSub s sub = true := by
  unfold containsSub
  exact decide_eq_true h

/-- C2: an SSE request that times out has exactly its own PendingRequest
entry removed — its id no longer resolves, every other pending id still
looks up unchanged — and both clients' TimeoutError messages name the
request id and the elapsed duration. -/
theorem timeout_isolation :
    (∀ (pending : List (String × Nat)) (request_id : String),
        (dkeys pending).Nodup →
        dlookup (MCPSSEClient.timeout_cleanup pending request_id) request_id
          = none)
  ∧ (∀ (pending : List (String × Nat)) (request_id k : String),
        k ≠ request_id →
        dlookup (MCPSSEClient.timeout_cleanup pending request_id) k
          = dlookup pending k)
  ∧ (∀ (request_id : String) (timeout : Nat),
        containsSub (MCPSSEClient.sse_timeout_message request_id timeout)
          request_id = true
      ∧ containsSub (MCPSSEClient.sse_timeout_message request_id timeout)
          (toString timeout) = true)
  ∧ (∀ request_id timeout : Nat,
        containsSub (MCPStdioClient.timeout_message request_id timeout)
          (toString request_id) = true
      ∧ containsSub (MCPStdioClient.timeout_message request_id timeout)
          (toString timeout) = true) := by
  refine ⟨?_, ?_, ?_, ?_⟩
  · intro pending request_id hnd
    exact dlookup_dremove_self pending request_id hnd
  · intro pending request_id k hk
    exact dlookup_dremove_ne pending request_id k hk
  · intro request_id timeout
    constructor
    · refine containsSub_of_infix ?_
      simp only [MCPSSEClient.sse_timeout_message, String.data_append,
        List.append_assoc]
      exact ⟨"SSE request ".data,
        " timed out after ".data ++ ((toString timeout).data ++ "s".data),
        by simp [List.append_assoc]⟩
    · refine containsSub_of_infix ?_
      simp only [MCPSSEClient.sse_timeout_message, String.data_append,
        List.append_assoc]
      exact ⟨"SSE request ".data ++ (request_id.data
          ++ " timed out after ".data), "s".data,
        by simp [List.append_assoc]⟩
  · intro request_id timeout
    constructor
    · refine containsSub_of_infix ?_
      simp only [MCPStdioClient.timeout_message, String.data_append,
        List.append_assoc]
      exact ⟨"Request ".data,
        " timed out after ".data ++ ((toString timeout).data ++ "s".data),
        by simp [List.append_assoc]⟩
    · refine containsSub_of_infix ?_
      simp only [MCPStdioClient.timeout_message, String.data_append,
        List.append_assoc]
      exact ⟨"Request ".data ++ ((toString request_id).data
          ++ " timed out after ".data), "s".data,
        by simp [List.append_assoc]⟩

/-- C2 witness. -/
theorem timeout_isolation_witness :
    dlookup (MCPSSEClient.timeout_cleanup [("a", 1), ("b", 2)] "a") "a" = none
  ∧ dlookup (MCPSSEClient.timeout_cleanup [("a", 1), ("b", 2)] "a") "b"
      = some 2 :=
  ⟨timeout_isolation.1 [("a", 1), ("b", 2)] "a" (by decide),
   (timeout_isolation.2.1 [("a", 1), ("b", 2)] "a" "b" (by decide)).trans rfl⟩

/-- C8: a POST answered 200 with parseable JSON is returned immediately
(no pending entry involved); otherwise an accepted status falls back to
waiting on the pending future when the message has an id; the listener
resolves a pending future at most once — handling a message event pops
its entry, so handling the same id again, or any id with no pending
entry, is discarded. -/
theorem sse_single_delivery :
    (∀ (m : MCPMessage String) (message_id : Option String),
        MCPSSEClient.send_request_route message_id (.resp 200 (some m))
          = .immediate m)
  ∧ (∀ (i : String) (status : Nat),
        status = 200 ∨ status = 202 ∨ status = 204 →
        MCPSSEClient.send_request_route (some i) (.resp status none)
          = .waitForResponse i)
  ∧ (∀ (pending : List (String × Nat)) (message : MCPMessage String)
        (i : String) (future : Nat), (dkeys pending).Nodup →
        message.id = some i → i ≠ "" → dlookup pending i = some future →
        MCPSSEClient.handle_message_event (some message) pending
            = (dremove pending i, some (future, message))
        ∧ MCPSSEClient.handle_message_event (some message)
            (dremove pending i) = (dremove pending i, none))
  ∧ (∀ (pending : List (String × Nat)) (message : MCPMessage String)
        (i : String), message.id = some i → i ≠ "" →
        dlookup pending i = none →
        MCPSSEClient.handle_message_event (some message) pending
          = (pending, none)) := by
  refine ⟨fun m message_id => rfl, ?_, ?_, ?_⟩
  · intro i status h
    rcases h with h | h | h <;> subst h <;> rfl
  · intro pending message i future hnd hid hne hfut
    constructor
    · simp only [MCPSSEClient.handle_message_event, hid, if_neg hne, hfut]
    · have h2 : dlookup (dremove pending i) i = none :=
        dlookup_dremove_self pending i hnd
      simp only [MCPSSEClient.handle_message_event, hid, if_neg hne, h2]
  · intro pending message i hid hne hfut
    simp only [MCPSSEClient.handle_message_event, hid, if_neg hne, hfut]

/-- C8 witness. -/
theorem sse_single_delivery_witness :
    MCPSSEClient.handle_message_event
        (some ({ id := some "a" } : MCPMessage String)) [("a", 5)]
      = ([], some (5, ({ id := some "a" } : MCPMessage String)))
  ∧ MCPSSEClient.handle_message_event
        (some ({ id := some "a" } : MCPMessage String)) []
      = ([], none) :=
  (sse_single_delivery.2.2.1 [("a", 5)] ({ id := some "a" } : MCPMessage String)
    "a" 5 (by decide) rfl (by decide) rfl)

/-- C9 counterexample: an initialize response carrying a server name is
ignored by the stdio client — `get_server_info` returns the synthesized
default name, while the claim demands the name from the response. -/
theorem stdio_server_info_counterexample :
    dlookup MCPStdioClient.get_server_info "server_name"
        = some (.str "MCP Server")
  ∧ dlookup (MCPStdioClient.get_server_info_claimed
        (some (JVal.obj [("protocolVersion", JVal.str "2025-01-01"),
          ("serverInfo", JVal.obj [("name", JVal.str "demo-server"),
            ("version", JVal.str "9.9")])]))) "server_name"
      = some (.str "demo-server") :=
  ⟨rfl, rfl⟩

/-- C9 (amended): the SSE client's protocol version, capabilities and
server name/version come from the fields of the initialize result; the
stdio client always returns synthesized defaults, which coincide with
the claim's behavior exactly when the information is absent. -/
theorem server_info_population :
    (∀ (st : MCPSSEClient.InfoState) (r : JVal), jtruthy r = true →
        (MCPSSEClient.apply_init_result (some r) st).protocol_version
            = jget r "protocolVersion"
        ∧ (MCPSSEClient.apply_init_result (some r) st).server_capabilities
            = (jget r "capabilities").getD (.obj [])
        ∧ (MCPSSEClient.apply_init_result (some r) st).server_info
            = (jget r "serverInfo").getD (.obj []))
  ∧ (∀ st : MCPSSEClient.InfoState,
        dlookup (MCPSSEClient.get_server_info st) "protocol_version"
            = some ((st.protocol_version).getD .null)
        ∧ dlookup (MCPSSEClient.get_server_info st) "server_name"
            = some ((jget st.server_info "name").getD (.str "SSE MCP Server"))
        ∧ dlookup (MCPSSEClient.get_server_info st) "server_version"
            = some ((jget st.server_info "version").getD (.str "unknown"))
        ∧ dlookup (MCPSSEClient.get_server_info st) "capabilities"
            = some st.server_capabilities)
  ∧ MCPStdioClient.get_server_info
      = MCPStdioClient.get_server_info_claimed none := by
  refine ⟨?_, ?_, rfl⟩
  · intro st r h
    have hred : MCPSSEClient.apply_init_result (some r) st
        = if jtruthy r = true then
            { protocol_version := jget r "protocolVersion",
              server_capabilities := (jget r "capabilities").getD (.obj []),
              server_info := (jget r "serverInfo").getD (.obj []),
              instructions := jget r "instructions" }
          else st := rfl
    rw [hred, if_pos h]
    exact ⟨rfl, rfl, rfl⟩
  · intro st
    cases hi : st.instructions with
    | none =>
      refine ⟨?_, ?_, ?_, ?_⟩ <;>
        simp [MCPSSEClient.get_server_info, hi, dlookup]
    | some ins =>
      by_cases ht : jtruthy ins = true <;>
        refine ⟨?_, ?_, ?_, ?_⟩ <;>
          simp [MCPSSEClient.get_server_info, hi, ht, dlookup]

/-- C9 witness. -/
theorem server_info_population_witness :
    (MCPSSEClient.apply_init_result
        (some (JVal.obj [("protocolVersion", JVal.str "2024-11-05")]))
        {}).protocol_version = some (JVal.str "2024-11-05") :=
  (server_info_population.1 {}
    (JVal.obj [("protocolVersion", JVal.str "2024-11-05")]) rfl).1

/-! ## Queue-rotation lemmas for the stdio wait loop -/

theorem alloc_ids_eq_range (k : Nat) : ∀ st : Nat,
    MCPStdioClient.alloc_ids st k = List.range' (st + 1) k := by
  induction k with
  | zero => intro st; rfl
  | succ k ih =>
    intro st
    show (st + 1) :: MCPStdioClient.alloc_ids (st + 1) k
      = List.range' (st + 1) (k + 1)
    rw [ih (st + 1)]
    rfl

theorem find_response_sound (request_id : Nat) :
    ∀ (fuel : Nat) (q q1 : List (MCPMessage Nat)) (m : MCPMessage Nat),
      MCPStdioClient.find_response request_id fuel q = some (m, q1) →
      m.id = some request_id ∧ (m :: q1).Perm q := by
  intro fuel
  induction fuel with
  | zero => intro q q1 m h; exact Option.noConfusion h
  | succ fuel ih =>
    intro q q1 m h
    cases q with
    | nil => exact Option.noConfusion h
    | cons m0 q0 =>
      have h2 : (if m0.id = some request_id then some (m0, q0)
          else MCPStdioClient.find_response request_id fuel (q0 ++ [m0]))
          = some (m, q1) := h
      by_cases h0 : m0.id = some request_id
      · rw [if_pos h0] at h2
        injection h2 with h3
        rw [Prod.mk.injEq] at h3
        obtain ⟨rfl, rfl⟩ := h3
        exact ⟨h0, List.Perm.refl _⟩
      · rw [if_neg h0] at h2
        obtain ⟨hid, hperm⟩ := ih (q0 ++ [m0]) q1 m h2
        exact ⟨hid, hperm.trans (List.perm_append_singleton m0 q0)⟩

theorem find_response_complete (request_id : Nat) :
    ∀ (fuel : Nat) (q : List (MCPMessage Nat)) (i : Nat)
      (m : MCPMessage Nat), i < fuel → q.get? i = some m →
      m.id = some request_id →
      (MCPStdioClient.find_response request_id fuel q).isSome := by
  intro fuel
  induction fuel with
  | zero => intro q i m hif _ _; exact absurd hif (Nat.not_lt_zero i)
  | succ fuel ih =>
    intro q i m hif hget hid
    cases q with
    | nil => simp at hget
    | cons m0 q0 =>
      have hred : MCPStdioClient.find_response request_id (fuel + 1)
          (m0 :: q0)
          = if m0.id = some request_id then some (m0, q0)
            else MCPStdioClient.find_response request_id fuel (q0 ++ [m0]) :=
        rfl
      by_cases h0 : m0.id = some request_id
      · rw [hred, if_pos h0]
        rfl
      · rw [hred, if_neg h0]
        cases i with
        | zero =>
          rw [List.get?_cons_zero] at hget
          injection hget with h2
          rw [← h2] at hid
          exact absurd hid h0
        | succ i =>
          rw [List.get?_cons_succ] at hget
          have hlen : i < q0.length := (List.get?_eq_some.mp hget).1
          have hget2 : (q0 ++ [m0]).get? i = some m := by
            rw [List.get?_eq_getElem?, List.getElem?_append, if_pos hlen,
              ← List.get?_eq_getElem?]
            exact hget
          exact ih (q0 ++ [m0]) i m (Nat.lt_of_succ_lt_succ hif) hget2 hid

theorem serve_all_correct :
    ∀ (rids : List Nat) (q : List (MCPMessage Nat)),
      (q.map (fun m => m.id)).Perm (rids.map some) →
      ∀ (i r : Nat), rids.get? i = some r →
      ∃ m : MCPMessage Nat,
        (MCPStdioClient.serve_all rids q).1.get? i = some (some m)
        ∧ m.id = some r ∧ m ∈ q := by
  intro rids
  induction rids with
  | nil => intro q _ i r hget; simp at hget
  | cons r0 rs ih =>
    intro q hperm i r hget
    have hmem : (some r0 : Option Nat) ∈ q.map (fun m => m.id) :=
      hperm.symm.subset (List.mem_cons_self _ _)
    obtain ⟨m1, hm1q, hm1id⟩ := List.mem_map.mp hmem
    obtain ⟨j, hj⟩ := List.get?_of_mem hm1q
    have hjlen : j < q.length := (List.get?_eq_some.mp hj).1
    have hsome : (MCPStdioClient.find_response r0 q.length q).isSome :=
      find_response_complete r0 q.length q j m1 hjlen hj hm1id
    obtain ⟨⟨m, q1⟩, hfr⟩ := Option.isSome_iff_exists.mp hsome
    obtain ⟨hmid, hmperm⟩ := find_response_sound r0 q.length q q1 m hfr
    have hserve : MCPStdioClient.serve_all (r0 :: rs) q
        = (some m :: (MCPStdioClient.serve_all rs q1).1,
           (MCPStdioClient.serve_all rs q1).2) := by
      simp only [MCPStdioClient.serve_all, MCPStdioClient.wait_for_response,
        hfr]
    have hperm1 : (q1.map (fun m => m.id)).Perm (rs.map some) := by
      have h3 : ((m :: q1).map (fun m => m.id)).Perm (q.map (fun m => m.id)) :=
        hmperm.map _
      have h4 : (some r0 :: q1.map (fun m => m.id)).Perm
          (some r0 :: rs.map some) := by
        have h5 := h3.trans hperm
        rw [List.map_cons, hmid] at h5
        exact h5
      exact h4.cons_inv
    cases i with
    | zero =>
      rw [List.get?_cons_zero] at hget
      injection hget with h6
      refine ⟨m, ?_, ?_, ?_⟩
      · rw [hserve, List.get?_cons_zero]
      · rw [hmid, h6]
      · exact hmperm.subset (List.mem_cons_self _ _)
    | succ i =>
      rw [List.get?_cons_succ] at hget
      obtain ⟨m2, hm2get, hm2id, hm2mem⟩ := ih q1 hperm1 i r hget
      refine ⟨m2, ?_, hm2id, ?_⟩
      · rw [hserve, List.get?_cons_succ]
        exact hm2get
      · exact hmperm.subset (List.mem_cons_of_mem _ hm2mem)

/-- C1: stdio ids come from a strictly increasing counter, so any run of
allocations yields distinct ids; the stdio wait loop returns exactly the
message bearing the requested id and keeps the rest of the queue as a
permutation; waiters draining the queue in turn, with ids matching the
queued responses, each receive exactly the response bearing their own id
no matter the arrival order; and the SSE listener resolves a delivered
response strictly by its id against the pending map. -/
theorem request_id_correlation :
    (∀ st k : Nat, List.Chain' (· < ·) (MCPStdioClient.alloc_ids st k)
        ∧ (MCPStdioClient.alloc_ids st k).Nodup)
  ∧ (∀ (request_id fuel : Nat) (q q1 : List (MCPMessage Nat))
        (m : MCPMessage Nat),
        MCPStdioClient.find_response request_id fuel q = some (m, q1) →
        m.id = some request_id ∧ (m :: q1).Perm q)
  ∧ (∀ (rids : List Nat) (q : List (MCPMessage Nat)), rids.Nodup →
        (q.map (fun m => m.id)).Perm (rids.map some) →
        ∀ (i r : Nat), rids.get? i = some r →
        ∃ m : MCPMessage Nat,
          (MCPStdioClient.serve_all rids q).1.get? i = some (some m)
          ∧ m.id = some r ∧ m ∈ q)
  ∧ (∀ (pending p1 : List (String × Nat))
        (parsed : Option (MCPMessage String)) (future : Nat)
        (m : MCPMessage String),
        MCPSSEClient.handle_message_event parsed pending
          = (p1, some (future, m)) →
        ∃ i : String, m.id = some i ∧ dlookup pending i = some future
          ∧ p1 = dremove pending i) := by
  refine ⟨?_, ?_, ?_, ?_⟩
  · intro st k
    rw [alloc_ids_eq_range k st]
    have hp := List.pairwise_lt_range' (st + 1) k
    exact ⟨hp.chain', hp.nodup⟩
  · intro request_id fuel q q1 m h
    exact find_response_sound request_id fuel q q1 m h
  · intro rids q _ hperm i r hget
    exact serve_all_correct rids q hperm i r hget
  · intro pending p1 parsed future m h
    cases parsed with
    | none =>
      rw [Prod.mk.injEq] at h
      exact Option.noConfusion h.2
    | some msg =>
      have hred : MCPSSEClient.handle_message_event (some msg) pending
          = match msg.id with
            | none => (pending, none)
            | some i =>
              if i = "" then (pending, none)
              else
                match dlookup pending i with
                | some fut => (dremove pending i, some (fut, msg))
                | none => (pending, none) := rfl
      rw [hred] at h
      cases hid : msg.id with
      | none =>
        rw [hid] at h
        rw [Prod.mk.injEq] at h
        exact Option.noConfusion h.2
      | some i =>
        rw [hid] at h
        have h2 : (if i = "" then
              (pending, (none : Option (Nat × MCPMessage String)))
            else
              match dlookup pending i with
              | some fut => (dremove pending i, some (fut, msg))
              | none => (pending, none)) = (p1, some (future, m)) := h
        by_cases hie : i = ""
        · rw [if_pos hie] at h2
          rw [Prod.mk.injEq] at h2
          exact Option.noConfusion h2.2
        · rw [if_neg hie] at h2
          cases hl : dlookup pending i with
          | none =>
            rw [hl] at h2
            have h3 : (pending, (none : Option (Nat × MCPMessage String)))
                = (p1, some (future, m)) := h2
            rw [Prod.mk.injEq] at h3
            exact Option.noConfusion h3.2
          | some fut =>
            rw [hl] at h2
            have h3 : (dremove pending i, some (fut, msg))
                = (p1, some (future, m)) := h2
            rw [Prod.mk.injEq] at h3
            obtain ⟨h5, h6⟩ := h3
            injection h6 with h7
            rw [Prod.mk.injEq] at h7
            obtain ⟨h8, h9⟩ := h7
            refine ⟨i, ?_, ?_, h5.symm⟩
            · rw [← h9]; exact hid
            · rw [← h8]; exact hl

/-- C1 witness. -/
theorem request_id_correlation_witness :
    ∃ m : MCPMessage Nat,
      (MCPStdioClient.serve_all [1, 2]
        [({ id := some 2 } : MCPMessage Nat),
         ({ id := some 1 } : MCPMessage Nat)]).1.get? 0 = some (some m)
      ∧ m.id = some 1
      ∧ m ∈ [({ id := some 2 } : MCPMessage Nat),
             ({ id := some 1 } : MCPMessage Nat)] :=
  request_id_correlation.2.2.1 [1, 2]
    [({ id := some 2 } : MCPMessage Nat), ({ id := some 1 } : MCPMessage Nat)]
    (by decide) (by decide) 0 1 rfl

end MCPDoctor
